import Mathlib

/-!
Verification of the grimoirelab-gitlink `elk-gitlink` connector.

This file gives a shallow embedding of the parts of the repository that the
specification talks about:

* the batch enrichment loop `GitlinkEnrich2.enrich_items`
  (src/grimoire_elk_gitlink/enriched/gitlink2.py, lines 493-533);
* the category dispatch `GitlinkEnrich2.get_rich_item` (lines 292-311);
* the issue enrichment `GitlinkEnrich2.__get_rich_issue` (lines 677-795)
  and the comment fan-out `GitlinkEnrich2.get_rich_issue_comments`
  (lines 324-392) together with `GitlinkEnrich2.enrich_issue` (lines 313-322);
* the repository enrichment `GitlinkEnrich2.__get_rich_repo` (lines 797-821);
* identity extraction `GitlinkEnrich2.get_identities` / `get_sh_identity`
  (lines 150-195);
* the raw fixer `GitlinkOcean._fix_item` (src/grimoire_elk_gitlink/raw/gitlink.py,
  lines 53-94);
* the legacy issue enrichment `GitlinkEnrich.__get_rich_issue`
  (src/grimoire_elk_gitlink/enriched/gitlink.py, lines 355-437).

Modelling conventions, used throughout:

* Python dictionaries built by the enrichers are modelled as association
  lists over an explicit key type `EKey`; assignment prepends, so a lookup
  that takes the first match realises the last-write-wins semantics of a
  Python dict.  A lookup of an absent key is a `KeyError`, modelled by
  `Except EKey`.
* ISO-8601 timestamp strings are modelled as integers (epoch seconds);
  the external parser `str_to_datetime` is the identity on that model.
* Fields that the Python code dereferences unconditionally (a `KeyError`
  otherwise) are total fields of the input structures; fields read through
  `dict.get` or guarded by truthiness checks are `Option` valued, with
  `none` standing for an absent key or a falsy value.
-/

/-- JSON-like scalar values stored in enriched documents. -/
inductive Val where
  | null
  | vint (n : Int)
  | vstr (s : String)
  | vbool (b : Bool)
  | vstrs (l : List String)
deriving DecidableEq

/-- The string keys that the gitlink enrichers write into enriched documents,
as an explicit key type.  Reaction keys carry their full rendered name
(source: `__get_reactions`, gitlink2.py lines 535-551). -/
inductive EKey where
  | metadata__updated_on | metadata__timestamp | offset | origin | tag | uuid
  | time_to_close_days | time_open_days
  | user_login | user_name | author_name | user_domain | user_org
  | user_location | user_geolocation
  | assignee_login | assignee_name | assignee_domain | assignee_org
  | assignee_location | assignee_geolocation
  | id | issue_id | issue_id_in_repo | repository
  | issue_title | issue_title_analyzed | issue_state
  | issue_created_at | issue_updated_at
  | reaction (name : String)
  | issue_labels | item_type | issue_pull_request
  | issue | gitlink_repo | url_id | id_in_repo
  | project
  | time_to_first_attention | num_of_comments_without_bot
  | time_to_first_attention_without_bot
  | grimoire_creation_date
  | is_gitlink2 (t : String) | is_gitlink (t : String) | is_gitlink_comment
  | issue_url | closed_at | issue_closed_at | sub_type | body | body_analyzed
  | comment_updated_at | url
  | repository_labels | metadata__filter_raw
  | metadata__gelk_version | metadata__gelk_backend_name | metadata__enriched_on
  | forks_count | subscribers_count | stargazers_count | fetched_on

/-- An injective code for `EKey`, used to decide key equality without
a quadratic derived matcher. -/
def EKey.encode : EKey → Nat ⊕ (Nat × String)
  | .metadata__updated_on => Sum.inl 0
  | .metadata__timestamp => Sum.inl 1
  | .offset => Sum.inl 2
  | .origin => Sum.inl 3
  | .tag => Sum.inl 4
  | .uuid => Sum.inl 5
  | .time_to_close_days => Sum.inl 6
  | .time_open_days => Sum.inl 7
  | .user_login => Sum.inl 8
  | .user_name => Sum.inl 9
  | .author_name => Sum.inl 10
  | .user_domain => Sum.inl 11
  | .user_org => Sum.inl 12
  | .user_location => Sum.inl 13
  | .user_geolocation => Sum.inl 14
  | .assignee_login => Sum.inl 15
  | .assignee_name => Sum.inl 16
  | .assignee_domain => Sum.inl 17
  | .assignee_org => Sum.inl 18
  | .assignee_location => Sum.inl 19
  | .assignee_geolocation => Sum.inl 20
  | .id => Sum.inl 21
  | .issue_id => Sum.inl 22
  | .issue_id_in_repo => Sum.inl 23
  | .repository => Sum.inl 24
  | .issue_title => Sum.inl 25
  | .issue_title_analyzed => Sum.inl 26
  | .issue_state => Sum.inl 27
  | .issue_created_at => Sum.inl 28
  | .issue_updated_at => Sum.inl 29
  | .issue_labels => Sum.inl 30
  | .item_type => Sum.inl 31
  | .issue_pull_request => Sum.inl 32
  | .issue => Sum.inl 33
  | .gitlink_repo => Sum.inl 34
  | .url_id => Sum.inl 35
  | .id_in_repo => Sum.inl 36
  | .project => Sum.inl 37
  | .time_to_first_attention => Sum.inl 38
  | .num_of_comments_without_bot => Sum.inl 39
  | .time_to_first_attention_without_bot => Sum.inl 40
  | .grimoire_creation_date => Sum.inl 41
  | .is_gitlink_comment => Sum.inl 42
  | .issue_url => Sum.inl 43
  | .closed_at => Sum.inl 44
  | .issue_closed_at => Sum.inl 45
  | .sub_type => Sum.inl 46
  | .body => Sum.inl 47
  | .body_analyzed => Sum.inl 48
  | .comment_updated_at => Sum.inl 49
  | .url => Sum.inl 50
  | .repository_labels => Sum.inl 51
  | .metadata__filter_raw => Sum.inl 52
  | .metadata__gelk_version => Sum.inl 53
  | .metadata__gelk_backend_name => Sum.inl 54
  | .metadata__enriched_on => Sum.inl 55
  | .forks_count => Sum.inl 56
  | .subscribers_count => Sum.inl 57
  | .stargazers_count => Sum.inl 58
  | .fetched_on => Sum.inl 59
  | .reaction s => Sum.inr (0, s)
  | .is_gitlink2 t => Sum.inr (1, t)
  | .is_gitlink t => Sum.inr (2, t)

/-- The left inverse of `EKey.encode` on its image. -/
def EKey.decode : Nat ⊕ (Nat × String) → EKey
  | Sum.inl 0 => .metadata__updated_on
  | Sum.inl 1 => .metadata__timestamp
  | Sum.inl 2 => .offset
  | Sum.inl 3 => .origin
  | Sum.inl 4 => .tag
  | Sum.inl 5 => .uuid
  | Sum.inl 6 => .time_to_close_days
  | Sum.inl 7 => .time_open_days
  | Sum.inl 8 => .user_login
  | Sum.inl 9 => .user_name
  | Sum.inl 10 => .author_name
  | Sum.inl 11 => .user_domain
  | Sum.inl 12 => .user_org
  | Sum.inl 13 => .user_location
  | Sum.inl 14 => .user_geolocation
  | Sum.inl 15 => .assignee_login
  | Sum.inl 16 => .assignee_name
  | Sum.inl 17 => .assignee_domain
  | Sum.inl 18 => .assignee_org
  | Sum.inl 19 => .assignee_location
  | Sum.inl 20 => .assignee_geolocation
  | Sum.inl 21 => .id
  | Sum.inl 22 => .issue_id
  | Sum.inl 23 => .issue_id_in_repo
  | Sum.inl 24 => .repository
  | Sum.inl 25 => .issue_title
  | Sum.inl 26 => .issue_title_analyzed
  | Sum.inl 27 => .issue_state
  | Sum.inl 28 => .issue_created_at
  | Sum.inl 29 => .issue_updated_at
  | Sum.inl 30 => .issue_labels
  | Sum.inl 31 => .item_type
  | Sum.inl 32 => .issue_pull_request
  | Sum.inl 33 => .issue
  | Sum.inl 34 => .gitlink_repo
  | Sum.inl 35 => .url_id
  | Sum.inl 36 => .id_in_repo
  | Sum.inl 37 => .project
  | Sum.inl 38 => .time_to_first_attention
  | Sum.inl 39 => .num_of_comments_without_bot
  | Sum.inl 40 => .time_to_first_attention_without_bot
  | Sum.inl 41 => .grimoire_creation_date
  | Sum.inl 42 => .is_gitlink_comment
  | Sum.inl 43 => .issue_url
  | Sum.inl 44 => .closed_at
  | Sum.inl 45 => .issue_closed_at
  | Sum.inl 46 => .sub_type
  | Sum.inl 47 => .body
  | Sum.inl 48 => .body_analyzed
  | Sum.inl 49 => .comment_updated_at
  | Sum.inl 50 => .url
  | Sum.inl 51 => .repository_labels
  | Sum.inl 52 => .metadata__filter_raw
  | Sum.inl 53 => .metadata__gelk_version
  | Sum.inl 54 => .metadata__gelk_backend_name
  | Sum.inl 55 => .metadata__enriched_on
  | Sum.inl 56 => .forks_count
  | Sum.inl 57 => .subscribers_count
  | Sum.inl 58 => .stargazers_count
  | Sum.inl 59 => .fetched_on
  | Sum.inr (0, s) => .reaction s
  | Sum.inr (1, t) => .is_gitlink2 t
  | Sum.inr (2, t) => .is_gitlink t
  | _ => .metadata__updated_on

theorem EKey.decode_encode (k : EKey) : EKey.decode (EKey.encode k) = k := by
  cases k <;> rfl

theorem EKey.encode_injective (a b : EKey)
    (h : EKey.encode a = EKey.encode b) : a = b := by
  have h2 := congrArg EKey.decode h
  rwa [EKey.decode_encode, EKey.decode_encode] at h2

instance : DecidableEq EKey := fun a b =>
  decidable_of_iff (EKey.encode a = EKey.encode b)
    ⟨EKey.encode_injective a b, fun h => by rw [h]⟩


/-- An enriched document: an association list; assignment prepends. -/
abbrev EDict := List (EKey × Val)

/-- A fresh empty Python dict. -/
def emptyDict : EDict := []

/-- `d[k] = v`: Python dict assignment.  Prepending together with a
first-match lookup gives last-write-wins semantics. -/
def dset (d : EDict) (k : EKey) (v : Val) : EDict := (k, v) :: d

/-- `d[k]`: Python dict indexing; raises `KeyError k` when absent. -/
def dget (d : EDict) (k : EKey) : Except EKey Val :=
  match d with
  | [] => Except.error k
  | (k2, v) :: rest => if k = k2 then Except.ok v else dget rest k

/-- `d.get(k, dflt)`: indexing with a default. -/
def dgetD (d : EDict) (k : EKey) (dflt : Val) : Val :=
  match dget d k with
  | Except.ok v => v
  | Except.error _ => dflt

/-- `k in d`: Python key membership. -/
def dmem (d : EDict) (k : EKey) : Bool :=
  match d with
  | [] => false
  | (k2, _) :: rest => if k = k2 then true else dmem rest k

/-- `d.pop(k, None)`: removes every binding of `k` so that the key is
absent afterwards, like Python dict pop on the unique binding. -/
def dpop (d : EDict) (k : EKey) : EDict :=
  d.filter (fun p => p.1 ≠ k)

/-! ## The batch enrichment loop (gitlink2.py lines 493-533)

The loop is embedded generically: the per-category mapping functions and
the sink are parameters, so every theorem about the loop holds for every
run of `GitlinkEnrich2.enrich_items` whatever the transform stage produced.
-/

/-- gitlink2.py line 21. -/
def MAX_SIZE_BULK_ENRICHED_ITEMS : Nat := 200

/-- gitlink2.py line 23. -/
def ISSUE_TYPE : String := "issue"

/-- gitlink2.py line 24. -/
def PULL_TYPE : String := "pull_request"

/-- gitlink2.py line 28. -/
def REPOSITORY_TYPE : String := "repository"

/-- Log events emitted by the pipeline, in order. -/
inductive LogEv where
  /-- `logger.error` in `get_rich_item`, lines 303-307: unroutable category. -/
  | catError (category : String)
  /-- `logger.error` at lines 527-529: `missing`/`num_items` missing items. -/
  | missing (missing : Int) (total : Nat)
  /-- `logger.info` at line 531: `num_items` items inserted. -/
  | inserted (total : Nat)
deriving DecidableEq

/-- A raw item as seen by the loop: its `category` discriminator and an
opaque payload consumed by the per-category mapping functions. -/
structure CatItem (β : Type) where
  category : String
  payload : β

/-- The per-category mapping functions of the transform stage, abstracted.
`post` is the composition of `add_repository_labels`,
`add_metadata_filter_raw` (lines 309-310) and the external `@metadata`
decorator, all of which only add bookkeeping keys to the produced dict. -/
structure EnrichFns (β : Type) where
  rich_issue : β → EDict
  rich_pull : β → EDict
  rich_repo : β → EDict
  post : EDict → EDict
  issue_fanout : β → EDict → List EDict
  pull_fanout : β → EDict → List EDict

/-- `GitlinkEnrich2.get_rich_item` (lines 292-311): dispatch on `category`;
an unknown category logs an error and leaves `rich_item = {}`, which is
still post-processed and returned. -/
def get_rich_item_m {β : Type} (F : EnrichFns β) (it : CatItem β) :
    EDict × List LogEv :=
  if it.category = ISSUE_TYPE then (F.post (F.rich_issue it.payload), [])
  else if it.category = PULL_TYPE then (F.post (F.rich_pull it.payload), [])
  else if it.category = REPOSITORY_TYPE then (F.post (F.rich_repo it.payload), [])
  else (F.post emptyDict, [LogEv.catError it.category])

/-- The records one source item adds to the buffer (lines 499-508):
the `get_rich_item` result is appended unconditionally, then the comment
or review fan-out records for the issue and pull categories. -/
def itemContribution {β : Type} (F : EnrichFns β) (it : CatItem β) : List EDict :=
  let eitem := (get_rich_item_m F it).1
  let eitems :=
    if it.category = ISSUE_TYPE then F.issue_fanout it.payload eitem
    else if it.category = PULL_TYPE then F.pull_fanout it.payload eitem
    else []
  eitem :: eitems

/-- All records the transform stage produces for a list of source items,
in order. -/
def contribs {β : Type} (F : EnrichFns β) (items : List (CatItem β)) : List EDict :=
  (items.map (itemContribution F)).flatten

/-- The mutable state of the loop in `enrich_items`. -/
structure LoopState where
  /-- `items_to_enrich` -/
  buf : List EDict
  /-- `num_items` -/
  num : Nat
  /-- `ins_items` -/
  ins : Nat
  /-- the batches handed to `self.elastic.bulk_upload`, in order -/
  flushes : List (List EDict)
  /-- the log events emitted so far, in order -/
  logs : List LogEv

/-- One iteration of the `for item in ocean_backend.fetch()` loop
(lines 498-517).  `upload` is the sink: it receives a batch and reports
how many records it wrote. -/
def enrichStep {β : Type} (F : EnrichFns β) (upload : List EDict → Nat)
    (st : LoopState) (it : CatItem β) : LoopState :=
  let lgs := (get_rich_item_m F it).2
  let buf := st.buf ++ itemContribution F it
  if buf.length < MAX_SIZE_BULK_ENRICHED_ITEMS then
    { st with buf := buf, logs := st.logs ++ lgs }
  else
    { buf := []
      num := st.num + buf.length
      ins := st.ins + upload buf
      flushes := st.flushes ++ [buf]
      logs := st.logs ++ lgs }

/-- The whole source drain (lines 498-517), before the trailing flush. -/
def enrichLoop {β : Type} (F : EnrichFns β) (upload : List EDict → Nat)
    (items : List (CatItem β)) : LoopState :=
  items.foldl (enrichStep F upload) ⟨[], 0, 0, [], []⟩

/-- `GitlinkEnrich2.enrich_items` (lines 493-533): drain the source, flush
the trailing partial batch (lines 519-523), emit the terminal report
(lines 525-531) and return `num_items` (line 533).  The result is the
final observable state paired with the return value. -/
def enrich_items_m {β : Type} (F : EnrichFns β) (upload : List EDict → Nat)
    (items : List (CatItem β)) : LoopState × Nat :=
  let st := enrichLoop F upload items
  let st :=
    if 0 < st.buf.length then
      { buf := []
        num := st.num + st.buf.length
        ins := st.ins + upload st.buf
        flushes := st.flushes ++ [st.buf]
        logs := st.logs }
    else st
  let st :=
    if st.num ≠ st.ins then
      { st with logs := st.logs ++ [LogEv.missing ((st.num : Int) - st.ins) st.num] }
    else
      { st with logs := st.logs ++ [LogEv.inserted st.num] }
  (st, st.num)

/-! ## External collaborators used by the issue enrichment

These helpers live in the host framework `grimoire_elk`, outside this
repository; they are modelled from their documented behaviour. -/

/-- Modelled from the external `grimoire_elk.enriched.utils.get_time_diff_days`:
the number of days elapsed between two timestamps, `none` when either
endpoint is missing.  Timestamps are integers (epoch seconds) and the
float result is modelled as an integer division by 86400. -/
def get_time_diff_days : Option Int → Option Int → Option Int
  | some s, some e => some ((e - s) / 86400)
  | _, _ => none

/-- Modelled from the external `Enrich.get_email_domain`: the part of the
address after the last `@`. -/
def get_email_domain (email : String) : Val :=
  Val.vstr ((email.splitOn "@").getLastD "")

/-- `Option Val` envelope field as the value `copy_raw_fields` stores:
the raw value when the key is present, `None` otherwise. -/
def ov (v : Option Val) : Val := v.getD Val.null

/-- `Option Int` metric rendered as a stored value. -/
def vOfOptInt : Option Int → Val
  | some n => Val.vint n
  | none => Val.null

/-- The envelope of a raw item: the fields listed in the external constant
`Enrich.RAW_FIELDS_COPY` plus the optional `project` key.  Every field is
optional; `copy_raw_fields` substitutes `None` for an absent one. -/
structure Envelope where
  metadata__updated_on : Option Val := none
  metadata__timestamp : Option Val := none
  offsetv : Option Val := none
  origin : Option Val := none
  tag : Option Val := none
  uuid : Option Val := none
  project : Option Val := none
deriving DecidableEq

/-- Modelled from the external `Enrich.copy_raw_fields` applied to
`RAW_FIELDS_COPY`: copy each envelope field, `None` when absent. -/
def copy_raw_fields_env (e : Envelope) (d : EDict) : EDict :=
  dset (dset (dset (dset (dset (dset d
    EKey.metadata__updated_on (ov e.metadata__updated_on))
    EKey.metadata__timestamp (ov e.metadata__timestamp))
    EKey.offset (ov e.offsetv))
    EKey.origin (ov e.origin))
    EKey.tag (ov e.tag))
    EKey.uuid (ov e.uuid)

/-- Modelled from the external `Enrich.get_grimoire_fields`: the creation
date plus the `is_<connector>_<type>` marker; for `GitlinkEnrich2` the
connector name is `gitlink2`. -/
def get_grimoire_fields2 (creation : Val) (item_name : String) (d : EDict) : EDict :=
  dset (dset d EKey.grimoire_creation_date creation) (EKey.is_gitlink2 item_name) (Val.vint 1)

/-- Ambient run parameters of the enricher: the wall clock read by
`datetime_utcnow()` and the values written by the external metadata
helpers (`add_gelk_metadata`, the `@metadata` decorator). -/
structure Ctx where
  now : Int
  gelk_version : String
  backend_name : String
  enriched_on : Int

/-- Modelled from `GitlinkEnrich2.add_gelk_metadata` (gitlink2.py lines
287-290) and the external `@metadata` decorator: bookkeeping keys only. -/
def add_gelk_metadata (ctx : Ctx) (d : EDict) : EDict :=
  dset (dset (dset d
    EKey.metadata__gelk_version (Val.vstr ctx.gelk_version))
    EKey.metadata__gelk_backend_name (Val.vstr ctx.backend_name))
    EKey.metadata__enriched_on (Val.vint ctx.enriched_on)

/-- Modelled from the external `Enrich.add_repository_labels` and
`Enrich.add_metadata_filter_raw` with the default configuration
(`repo_labels` and `filter_raw` unset): both store `None`. -/
def add_labels_and_filter (d : EDict) : EDict :=
  dset (dset d EKey.repository_labels Val.null) EKey.metadata__filter_raw Val.null

/-! ## Data model of a raw gitlink issue (as read by gitlink2.py) -/

/-- A user object as read by `__get_rich_issue` for `author_data` /
`assignee_data`: `name`, `email`, `company` are indexed directly
(required keys), `location` is read through `.get`.  A falsy `email`
(null or empty) is `none`. -/
structure DUser where
  login : String
  name : String
  email : Option String
  company : Val
  location : Option String
deriving DecidableEq

/-- The `assignee_data` value: either the sentinel `USER_NOT_AVAILABLE`
(`{"organizations": []}`, gitlink2.py line 30) or a user object. -/
inductive AUser where
  | notAvailable
  | du (u : DUser)
deriving DecidableEq

/-- A comment user as read by the attention helpers: `login` and `name`
are indexed directly.  Comments whose `user` is falsy or lacks these keys
would raise `KeyError` inside the helpers called at lines 772-784; they
are outside this model. -/
structure CUser where
  login : String
  name : String
deriving DecidableEq

/-- A raw issue comment as read by `get_rich_issue_comments` (lines
324-392) and the attention helpers (lines 201-261). -/
structure IComment where
  cid : Int
  body : String
  created_at : Int
  updated_at : Int
  user : CUser
  user_data : Option CUser
  reactions : List (String × Val)
deriving DecidableEq

/-- A raw gitlink issue payload (`item["data"]`) with the fields that
`GitlinkEnrich2.__get_rich_issue` dereferences.  `author_login` is
`issue["author"]["login"]` (line 697); `user_login2` is
`issue["user"]["login"]`, which the `without_bot` helpers read (lines
232, 246, 258).  `finished_at` carries a null value for open issues. -/
structure IssueItem where
  created_at : Int
  finished_at : Option Int
  updated_at : Int
  status_id : Int
  status_name : String
  author_login : String
  user_login2 : String
  author_data : Option DUser
  assignee_data : Option AUser
  iid : Int
  html_url : String
  title : String
  labels : Option (List String)
  has_head : Bool
  has_pull_request : Bool
  reactions : List (String × Val)
  comments_data : List IComment
deriving DecidableEq

/-- `__get_reactions` (gitlink2.py lines 535-551): drop the `url` key and
rename `-1`/`+1` to `thumb_down`/`thumb_up`, keys prefixed `reaction_`. -/
def get_reactions (rs : List (String × Val)) : List (EKey × Val) :=
  (rs.filter (fun p => p.1 ≠ "url")).map (fun p =>
    (EKey.reaction ("reaction_" ++
      (if p.1 = "-1" then "thumb_down"
       else if p.1 = "+1" then "thumb_up" else p.1)), p.2))

/-- `get_time_to_first_attention` (lines 201-222): the earliest creation
date of a comment not written by the issue author. -/
def time_to_first_attention (it : IssueItem) : Option Int :=
  ((it.comments_data.filter (fun c => it.author_login ≠ c.user.login)).map
    (fun c => c.created_at)).min?

/-- `get_time_to_first_attention_without_bot` (lines 225-237): as above but
against `issue["user"]["login"]` and excluding users whose name ends in
`bot`. -/
def time_to_first_attention_without_bot (it : IssueItem) : Option Int :=
  ((it.comments_data.filter (fun c =>
      it.user_login2 ≠ c.user.login ∧ ¬ (c.user.name.endsWith "bot"))).map
    (fun c => c.created_at)).min?

/-- `get_num_of_comments_without_bot` (lines 251-261). -/
def num_of_comments_without_bot (it : IssueItem) : Nat :=
  (it.comments_data.filter (fun c =>
    it.user_login2 ≠ c.user.login ∧ ¬ (c.user.name.endsWith "bot"))).length

/-- gitlink2.py line 22. -/
def GITLINK : String := "www.//gitlink.org.cn/"

/-- gitlink2.py line 25. -/
def COMMENT_TYPE : String := "comment"

/-- gitlink2.py line 26. -/
def ISSUE_COMMENT_TYPE : String := "issue_comment"

/-- gitlink2.py line 31. -/
def DELETED_USER_LOGIN : String := "Deleted user login"

/-- gitlink2.py line 32. -/
def DELETED_USER_NAME : String := "Deleted user"

/-- Python `str()` of a stored value, as used by `"...".format(...)`. -/
def strOfVal : Val → String
  | Val.null => "None"
  | Val.vint n => toString n
  | Val.vstr s => s
  | Val.vbool b => if b then "True" else "False"
  | Val.vstrs _ => ""

/-- An optional string rendered as a stored value. -/
def oStr : Option String → Val
  | some s => Val.vstr s
  | none => Val.null

/-! ## `GitlinkEnrich2.__get_rich_issue` (gitlink2.py lines 677-795)

The function is split into stages in source order; `get_rich_issue2`
composes them.  The enricher runs with identity resolution
(`self.sortinghat`) and the projects map (`self.prjs_map`) disabled, so
lines 766-767 and 791-793 are no-ops in this model. -/

/-- Lines 684-695: `time_to_close_days` from `created_at`/`finished_at`,
and `time_open_days` against the wall clock for status codes 1 and 2,
otherwise equal to `time_to_close_days`. -/
def issueStageTimes (ctx : Ctx) (it : IssueItem) (d : EDict) : EDict :=
  let ttc := vOfOptInt (get_time_diff_days (some it.created_at) it.finished_at)
  let d := dset d EKey.time_to_close_days ttc
  if it.status_id = 1 ∨ it.status_id = 2 then
    dset d EKey.time_open_days
      (vOfOptInt (get_time_diff_days (some it.created_at) (some ctx.now)))
  else
    dset d EKey.time_open_days ttc

/-- Lines 697-733: `user_login`, the author block and the assignee block,
with every field nulled when the actor is absent, falsy or the
`USER_NOT_AVAILABLE` sentinel. -/
def issueStageUsers (it : IssueItem) (d : EDict) : EDict :=
  let d := dset d EKey.user_login (Val.vstr it.author_login)
  let d :=
    match it.author_data with
    | some u =>
      dset (dset (dset (dset (dset (dset d
        EKey.user_name (Val.vstr u.name))
        EKey.author_name (Val.vstr u.name))
        EKey.user_domain
          (match u.email with | some em => get_email_domain em | none => Val.null))
        EKey.user_org u.company)
        EKey.user_location (oStr u.location))
        EKey.user_geolocation Val.null
    | none =>
      dset (dset (dset (dset (dset (dset d
        EKey.user_name Val.null)
        EKey.user_domain Val.null)
        EKey.user_org Val.null)
        EKey.user_location Val.null)
        EKey.user_geolocation Val.null)
        EKey.author_name Val.null
  match it.assignee_data with
  | some (AUser.du u) =>
    dset (dset (dset (dset (dset (dset d
      EKey.assignee_login (Val.vstr u.login))
      EKey.assignee_name (Val.vstr u.name))
      EKey.assignee_domain
        (match u.email with | some em => get_email_domain em | none => Val.null))
      EKey.assignee_org u.company)
      EKey.assignee_location (oStr u.location))
      EKey.assignee_geolocation Val.null
  | _ =>
    dset (dset (dset (dset (dset (dset d
      EKey.assignee_name Val.null)
      EKey.assignee_login Val.null)
      EKey.assignee_domain Val.null)
      EKey.assignee_org Val.null)
      EKey.assignee_location Val.null)
      EKey.assignee_geolocation Val.null

/-- Lines 735-743: identifiers, repository and pass-through issue fields.
`get_project_repository` reads `eitem["origin"]`, which
`copy_raw_fields_env` always wrote, so the defaulted read never falls
back. -/
def issueStageCore (it : IssueItem) (d : EDict) : EDict :=
  let d := dset d EKey.id (Val.vint it.iid)
  let d := dset d EKey.issue_id (Val.vint it.iid)
  let d := dset d EKey.issue_id_in_repo
    (Val.vstr ((it.html_url.splitOn "/").getLastD ""))
  let d := dset d EKey.repository (dgetD d EKey.origin Val.null)
  let d := dset d EKey.issue_title (Val.vstr it.title)
  let d := dset d EKey.issue_title_analyzed (Val.vstr it.title)
  let d := dset d EKey.issue_state (Val.vstr it.status_name)
  let d := dset d EKey.issue_created_at (Val.vint it.created_at)
  dset d EKey.issue_updated_at (Val.vint it.updated_at)

/-- Line 749: merge the extracted reactions into the document. -/
def issueStageReactions (it : IssueItem) (d : EDict) : EDict :=
  (get_reactions it.reactions).foldl (fun d p => dset d p.1 p.2) d

/-- Lines 751-753: labels, only when the raw issue has a `labels` key. -/
def issueStageLabels (it : IssueItem) (d : EDict) : EDict :=
  match it.labels with
  | some ls => dset d EKey.issue_labels (Val.vstrs ls)
  | none => d

/-- Lines 755-764: `item_type`, the `issue_pull_request` flag and the
`"issue" in rich_issue.keys()` block.  No earlier write uses the key
`issue`, so the block is dead; in Python it would in addition raise a
`KeyError` on `rich_issue["id_in_repo"]`, a key this enricher never
writes.  It is embedded with defaulted reads. -/
def issueStageFlags (it : IssueItem) (d : EDict) : EDict :=
  let d := dset d EKey.item_type (Val.vstr ISSUE_TYPE)
  let d := dset d EKey.issue_pull_request (Val.vbool true)
  let d :=
    if ¬ it.has_head ∧ ¬ it.has_pull_request then
      dset d EKey.issue_pull_request (Val.vbool false)
    else d
  if dmem d EKey.issue then
    let repoStr := (strOfVal (dgetD d EKey.issue Val.null)).replace GITLINK ""
    dset (dset d EKey.gitlink_repo (Val.vstr repoStr)) EKey.url_id
      (Val.vstr (repoStr ++ "/issues/" ++ strOfVal (dgetD d EKey.id_in_repo Val.null)))
  else d

/-- Lines 769-770: the optional `project` pass-through. -/
def issueStageProject (e : Envelope) (d : EDict) : EDict :=
  match e.project with
  | some p => dset d EKey.project p
  | none => d

/-- Lines 772-784: first-attention metrics, only when the issue has
comments. -/
def issueStageAttention (it : IssueItem) (d : EDict) : EDict :=
  let d := dset d EKey.time_to_first_attention Val.null
  if it.comments_data.length ≠ 0 then
    dset (dset (dset d
      EKey.time_to_first_attention
        (vOfOptInt (get_time_diff_days (some it.created_at) (time_to_first_attention it))))
      EKey.num_of_comments_without_bot (Val.vint (num_of_comments_without_bot it)))
      EKey.time_to_first_attention_without_bot
        (vOfOptInt (get_time_diff_days (some it.created_at)
          (time_to_first_attention_without_bot it)))
  else d

/-- Lines 786-789: grimoire fields, then replace the `is_gitlink2_issue`
marker by `is_gitlink_issue`. -/
def issueStageGrimoire (it : IssueItem) (d : EDict) : EDict :=
  let d := get_grimoire_fields2 (Val.vint it.created_at) ISSUE_TYPE d
  let d := dpop d (EKey.is_gitlink2 ISSUE_TYPE)
  dset d (EKey.is_gitlink ISSUE_TYPE) (Val.vint 1)

/-- `GitlinkEnrich2.__get_rich_issue` (lines 677-795). -/
def get_rich_issue2 (ctx : Ctx) (e : Envelope) (it : IssueItem) : EDict :=
  issueStageGrimoire it
    (issueStageAttention it
      (issueStageProject e
        (issueStageFlags it
          (issueStageLabels it
            (issueStageReactions it
              (issueStageCore it
                (issueStageUsers it
                  (issueStageTimes ctx it
                    (copy_raw_fields_env e emptyDict)))))))))

/-- `get_rich_item` on an issue item (lines 296-297, 309-311) including
the external `@metadata` decorator: the enriched issue plus bookkeeping
keys. -/
def get_rich_item_issue (ctx : Ctx) (e : Envelope) (it : IssueItem) : EDict :=
  add_gelk_metadata ctx (add_labels_and_filter (get_rich_issue2 ctx e it))

/-! ## `GitlinkEnrich2.get_rich_issue_comments` (gitlink2.py lines 324-392)

Reads of `eitem[...]` are Python dict indexings that raise `KeyError` for
an absent key, so the embedding lives in `Except EKey`, reading the parent
document in exact source order. -/

/-- Modelled from the external constant `Enrich.KEYWORD_MAX_LENGTH`. -/
def KEYWORD_MAX_LENGTH : Nat := 1000

/-- `copy_raw_fields(self.RAW_FIELDS_COPY, eitem, ecomment)` (line 330):
copy the envelope fields from the parent enriched issue, `None` when
absent there. -/
def copy_raw_fields_from (src : EDict) (d : EDict) : EDict :=
  dset (dset (dset (dset (dset (dset d
    EKey.metadata__updated_on (dgetD src EKey.metadata__updated_on Val.null))
    EKey.metadata__timestamp (dgetD src EKey.metadata__timestamp Val.null))
    EKey.offset (dgetD src EKey.offset Val.null))
    EKey.origin (dgetD src EKey.origin Val.null))
    EKey.tag (dgetD src EKey.tag Val.null))
    EKey.uuid (dgetD src EKey.uuid Val.null)

/-- One iteration of the loop in `get_rich_issue_comments`
(lines 327-390), enriching a single raw comment against the parent
enriched issue `eitem`. -/
def get_rich_issue_comment (ctx : Ctx) (eitem : EDict) (c : IComment) :
    Except EKey EDict := do
  let d := copy_raw_fields_from eitem emptyDict
  -- lines 333-344: copy data from the enriched issue
  let v ← dget eitem EKey.issue_labels
  let d := dset d EKey.issue_labels v
  let v ← dget eitem EKey.issue_id
  let d := dset d EKey.issue_id v
  let v ← dget eitem EKey.issue_id_in_repo
  let d := dset d EKey.issue_id_in_repo v
  let v ← dget eitem EKey.issue_url
  let d := dset d EKey.issue_url v
  let v ← dget eitem EKey.issue_title
  let d := dset d EKey.issue_title v
  let v ← dget eitem EKey.issue_state
  let d := dset d EKey.issue_state v
  let v ← dget eitem EKey.issue_created_at
  let d := dset d EKey.issue_created_at v
  let v ← dget eitem EKey.issue_updated_at
  let d := dset d EKey.issue_updated_at v
  let v ← dget eitem EKey.closed_at
  let d := dset d EKey.issue_closed_at v
  let v ← dget eitem EKey.issue_pull_request
  let d := dset d EKey.issue_pull_request v
  let v ← dget eitem EKey.gitlink_repo
  let d := dset d EKey.gitlink_repo v
  let v ← dget eitem EKey.repository
  let d := dset d EKey.repository v
  let d := dset d EKey.item_type (Val.vstr COMMENT_TYPE)
  let d := dset d EKey.sub_type (Val.vstr ISSUE_COMMENT_TYPE)
  -- lines 349-350: body from the raw comment
  let d := dset d EKey.body (Val.vstr (c.body.take KEYWORD_MAX_LENGTH))
  let d := dset d EKey.body_analyzed (Val.vstr c.body)
  -- line 354: reactions
  let d := (get_reactions c.reactions).foldl (fun d p => dset d p.1 p.2) d
  let d := dset d EKey.comment_updated_at (Val.vint c.updated_at)
  -- line 359: synthesized identifier
  let pid ← dget eitem EKey.id
  let d := dset d EKey.id
    (Val.vstr (strOfVal pid ++ "_issue_comment_" ++ toString c.cid))
  -- lines 360-366: grimoire fields and markers
  let d := get_grimoire_fields2 (Val.vint c.updated_at) ISSUE_COMMENT_TYPE d
  let d := dpop d (EKey.is_gitlink2 ISSUE_COMMENT_TYPE)
  let d := dset d (EKey.is_gitlink ISSUE_COMMENT_TYPE) (Val.vint 1)
  let d := dset d EKey.is_gitlink_comment (Val.vint 1)
  -- lines 369-373: user login, with the deleted-user fallback
  let d := dset d EKey.user_login
    (Val.vstr ((c.user_data.map CUser.login).getD DELETED_USER_LOGIN))
  -- lines 375-381: sortinghat and projects map disabled in this model
  -- lines 383-384: optional project pass-through from the parent
  let d :=
    if dmem eitem EKey.project then
      dset d EKey.project (dgetD eitem EKey.project Val.null)
    else d
  -- lines 386-388: bookkeeping keys
  let d := add_labels_and_filter d
  let d := add_gelk_metadata ctx d
  pure d

/-- `GitlinkEnrich2.get_rich_issue_comments` (lines 324-392). -/
def get_rich_issue_comments (ctx : Ctx) (comments : List IComment)
    (eitem : EDict) : Except EKey (List EDict) :=
  comments.mapM (get_rich_issue_comment ctx eitem)

/-- `GitlinkEnrich2.enrich_issue` (lines 313-322): the comment fan-out,
empty when the issue has no comments. -/
def enrich_issue (ctx : Ctx) (it : IssueItem) (eitem : EDict) :
    Except EKey (List EDict) :=
  if it.comments_data ≠ [] then get_rich_issue_comments ctx it.comments_data eitem
  else pure []

/-! ## `GitlinkEnrich2.__get_rich_repo` (gitlink2.py lines 797-821) -/

/-- A raw repository payload (`item["data"]`) with the fields that
`__get_rich_repo` dereferences; every one is a required key there. -/
structure RepoData where
  forks_count : Int
  subscribers_count : Int
  stargazers_count : Int
  fetched_on : String
  origin : String
deriving DecidableEq

/-- `GitlinkEnrich2.__get_rich_repo` (lines 797-821).  Line 816 indexes
`item["metadata__updated_on"]` directly; the model reads the envelope
field with a null fallback, faithful whenever the envelope carries the
field (raw ocean items always do). -/
def get_rich_repo2 (e : Envelope) (r : RepoData) : EDict :=
  let d := copy_raw_fields_env e emptyDict
  let d := dset d EKey.id (Val.vstr r.fetched_on)
  let d := dset d EKey.forks_count (Val.vint r.forks_count)
  let d := dset d EKey.subscribers_count (Val.vint r.subscribers_count)
  let d := dset d EKey.stargazers_count (Val.vint r.stargazers_count)
  let d := dset d EKey.fetched_on (Val.vstr r.fetched_on)
  let d := dset d EKey.url (Val.vstr r.origin)
  let d := dset d EKey.item_type (Val.vstr "repository")
  let d := get_grimoire_fields2 (ov e.metadata__updated_on) REPOSITORY_TYPE d
  let d := dpop d (EKey.is_gitlink2 REPOSITORY_TYPE)
  dset d (EKey.is_gitlink REPOSITORY_TYPE) (Val.vint 1)

/-! ## `GitlinkEnrich2.get_identities` / `get_sh_identity` (lines 150-195)

A user dict here may miss any of its keys, so its fields are `Option`
valued; `none` stands for an absent key or a null value (Python `.get`
with a present null key is conflated with an absent key, the only inputs
distinguishing them carry explicit nulls that the raw fixer never
produces). -/

/-- A user record as consumed by `get_sh_identity`. -/
structure UserD where
  login : Option String
  name : Option String
  email : Option String
  username : Option String
deriving DecidableEq

/-- An extracted identity tuple; `get_sh_identity` always populates all
three keys, possibly with nulls. -/
structure SHIdentity where
  name : Option String
  email : Option String
  username : Option String
deriving DecidableEq

/-- `GitlinkEnrich2.get_sh_identity` (lines 178-195) as called from
`get_identities` (no `identity_field`, the argument is the user dict
itself; user dicts never carry a `data` key, so the indirection at lines
183-186 is the identity).  A falsy user yields the empty dict, modelled
as `none`; otherwise the three keys are filled with `.get` fallbacks. -/
def get_sh_identity (user : Option UserD) : Option SHIdentity :=
  match user with
  | none => none
  | some u =>
    some { name := u.name <|> u.login
           email := u.email
           username := u.username <|> u.login }

/-- An item as read by `get_identities`: for each role,
`item[role]` is a required key whose truthiness is a `Bool`, and
`item[role + "_data"]` is an optional key holding a possibly-falsy user
dict (outer `Option`: key present; inner: dict truthy).  Comments carry
the required `user_data` key. -/
structure IdentItem where
  category : String
  authorRef : Bool
  assigneeRef : Bool
  mergedByRef : Bool
  author_data : Option (Option UserD)
  assignee_data : Option (Option UserD)
  merged_by_data : Option (Option UserD)
  comments_data : List (Option UserD)
deriving DecidableEq

/-- One role of the loop at lines 164-170: yield the extracted identity
when the role reference is truthy, the `<role>_data` key exists and the
user dict is truthy. -/
def roleIdentity (ref : Bool) (rdata : Option (Option UserD)) : Option SHIdentity :=
  if ref then
    match rdata with
    | some u => get_sh_identity u
    | none => none
  else none

/-- `GitlinkEnrich2.get_identities` (lines 150-176): author and assignee
for issues, only `merged_by` for pull requests, nothing otherwise; then
one identity per comment with a truthy `user_data` — but
`comments_attr` is only set for issues, so pull-request commenters are
never visited. -/
def get_identities (it : IdentItem) : List SHIdentity :=
  (if it.category = "issue" then
     [roleIdentity it.authorRef it.author_data,
      roleIdentity it.assigneeRef it.assignee_data]
   else if it.category = "pull_request" then
     [roleIdentity it.mergedByRef it.merged_by_data]
   else []).filterMap (fun x => x)
  ++ (if it.category = "issue" then it.comments_data else []).filterMap
       get_sh_identity

/-! ## `GitlinkOcean._fix_item` (raw/gitlink.py lines 53-94) -/

/-- A raw actor reference (`item[identity]`): `none` models an absent key
or a falsy value, both skipped by the `continue` guards at lines 71-74. -/
structure FUser where
  login : String
deriving DecidableEq

/-- The synthesized `<identity>_data` payload (lines 78-84, 88-94). -/
structure FUserData where
  name : String
  login : String
  email : Option String
  company : Option String
  location : Option String
deriving DecidableEq

/-- A raw comment as touched by `_fix_item`: `user` is a required key
(line 89), `user_data` is overwritten. -/
structure FComment where
  user : FUser
  user_data : Option FUserData
deriving DecidableEq

/-- The `data` payload of a raw ocean item, with the keys `_fix_item`
touches. -/
structure FData where
  author : Option FUser
  assignee : Option FUser
  merge_by : Option FUser
  author_data : Option FUserData
  assignee_data : Option FUserData
  merge_by_data : Option FUserData
  comments_data : List FComment
deriving DecidableEq

/-- A raw ocean item.  `classified_fields_filtered` is `none` when the
key is absent, `some b` for a present value of truthiness `b`. -/
structure FItem where
  category : String
  classified_fields_filtered : Option Bool
  data : FData
deriving DecidableEq

/-- The user-data record `_fix_item` synthesizes from a login. -/
def fixUserData (login : String) : FUserData :=
  { name := login, login := login, email := none, company := none, location := none }

/-- `GitlinkOcean._fix_item` (raw/gitlink.py lines 53-94), as a state
transformer on the item.  When `classified_fields_filtered` is absent or
falsy the function returns at line 57 without touching the item;
otherwise it rebuilds the role `_data` entries from the logins and, for
issues, every comment `user_data`. -/
def _fix_item (it : FItem) : FItem :=
  match it.classified_fields_filtered with
  | some true =>
    let d := it.data
    let d :=
      if it.category = "issue" then
        let d := match d.author with
          | some u => { d with author_data := some (fixUserData u.login) }
          | none => d
        match d.assignee with
        | some u => { d with assignee_data := some (fixUserData u.login) }
        | none => d
      else if it.category = "pull_request" then
        match d.merge_by with
        | some u => { d with merge_by_data := some (fixUserData u.login) }
        | none => d
      else d
    let d :=
      if it.category = "issue" then
        { d with comments_data := d.comments_data.map (fun c =>
            { c with user_data := some (fixUserData c.user.login) }) }
      else d
    { it with data := d }
  | _ => it

/-! ## `GitlinkEnrich.__get_rich_issue` (gitlink.py lines 355-437)

The legacy enricher writes a fixed set of keys, so its output is a plain
structure.  The `"issue" in rich_issue.keys()` block at lines 420-424 is
dead (no earlier write uses that key) and is omitted; the author block at
lines 380-387 always takes its first branch because line 378 already
dereferenced `issue["author"]["login"]`, so the author dict is present
and non-empty. -/

/-- A user as read by the legacy enricher: `login` and `name` are
required keys. -/
structure V1User where
  login : String
  name : String
deriving DecidableEq

/-- A raw issue payload as dereferenced by `GitlinkEnrich.__get_rich_issue`. -/
structure V1IssueData where
  created_at : Int
  updated_at : Int
  status_id : Int
  status_name : String
  author : V1User
  assignee : Option (List V1User)
  iid : Int
  project_issues_index : String
  labels : Option (List String)
  has_head : Bool
  has_pull_request : Bool
deriving DecidableEq

/-- The per-assignee record built in the loop at lines 391-396. -/
structure V1Assignee where
  assignee_login : String
  assignee_name : String
deriving DecidableEq

/-- The enriched issue document of the legacy enricher. -/
structure RichIssueV1 where
  origin : Option Val
  metadata__updated_on : Option Val
  metadata__timestamp : Option Val
  tag : Option Val
  uuid : Option Val
  time_to_close_days : Option Int
  time_open_days : Option Int
  user_login : String
  user_name : String
  author_name : String
  assignee : Option V1Assignee
  id : Int
  id_in_repo : String
  repository : Val
  state : String
  created_at : Int
  updated_at : Int
  labels : Option (List String)
  pull_request : Bool
  item_type : String
  project : Option Val
  grimoire_creation_date : Int
  is_gitlink_issue : Nat
deriving DecidableEq

/-- Lines 389-399: the loop builds one record per assignee but the final
assignment stores only the record of the last loop iteration; an absent
or empty assignee list stores `None`. -/
def v1AssigneeField (assignees : Option (List V1User)) : Option V1Assignee :=
  match assignees with
  | none => none
  | some [] => none
  | some (a :: rest) =>
    ((a :: rest).map (fun x => V1Assignee.mk x.login x.name)).getLast?

/-- `GitlinkEnrich.__get_rich_issue` (gitlink.py lines 355-437), with the
wall clock passed explicitly. -/
def get_rich_issue_v1 (now : Int) (e : Envelope) (issue : V1IssueData) :
    RichIssueV1 :=
  let ttc := get_time_diff_days (some issue.created_at) (some issue.updated_at)
  { origin := e.origin
    metadata__updated_on := e.metadata__updated_on
    metadata__timestamp := e.metadata__timestamp
    tag := e.tag
    uuid := e.uuid
    time_to_close_days := ttc
    time_open_days :=
      if issue.status_id = 1 ∨ issue.status_id = 2 then
        get_time_diff_days (some issue.created_at) (some now)
      else ttc
    user_login := issue.author.login
    user_name := issue.author.name
    author_name := issue.author.name
    assignee := v1AssigneeField issue.assignee
    id := issue.iid
    id_in_repo := issue.project_issues_index
    repository := ov e.origin
    state := issue.status_name
    created_at := issue.created_at
    updated_at := issue.updated_at
    labels := issue.labels
    pull_request := ¬ (¬ issue.has_head ∧ ¬ issue.has_pull_request)
    item_type :=
      if ¬ issue.has_head ∧ ¬ issue.has_pull_request then "issue"
      else "pull_request"
    project := e.project
    grimoire_creation_date := issue.created_at
    is_gitlink_issue := 1 }

/-! ## Derived observables and concrete fixtures -/

/-- The log events `get_rich_item` emits for one source item. -/
def itemLogs {β : Type} (F : EnrichFns β) (it : CatItem β) : List LogEv :=
  (get_rich_item_m F it).2

/-- The log events the transform stage emits over a whole source, in
order (the loop itself logs nothing until the terminal report). -/
def itemsLogs {β : Type} (F : EnrichFns β) (items : List (CatItem β)) : List LogEv :=
  (items.map (itemLogs F)).flatten

/-- Whether a role reference passes the guards of `get_identities` line
166: the reference is truthy, the `_data` key exists and its user dict is
truthy. -/
def rolePasses (ref : Bool) (rdata : Option (Option UserD)) : Bool :=
  ref && (match rdata with | some (some _) => true | _ => false)

/-- A transform stage with empty documents and no fan-out, used to
instantiate the generic loop on concrete runs. -/
def plainFns : EnrichFns Unit :=
  { rich_issue := fun _ => emptyDict
    rich_pull := fun _ => emptyDict
    rich_repo := fun _ => emptyDict
    post := fun d => d
    issue_fanout := fun _ _ => []
    pull_fanout := fun _ _ => [] }

/-- A transform stage whose issues fan out into 199 comment records, so
one issue item fills a batch of exactly 200. -/
def fanoutFns : EnrichFns Unit :=
  { plainFns with issue_fanout := fun _ _ => List.replicate 199 emptyDict }

/-- A sink that loses one record of every batch. -/
def lossyUpload (batch : List EDict) : Nat := batch.length - 1

/-- A sink that writes every record. -/
def fullUpload (batch : List EDict) : Nat := batch.length

/-- Two issue items that each fill one batch under `fanoutFns`. -/
def twoFullBatches : List (CatItem Unit) :=
  [{ category := "issue", payload := () }, { category := "issue", payload := () }]

/-- A single source item with the unroutable category `widget`. -/
def widgetItem : CatItem Unit := { category := "widget", payload := () }

/-- Fixture: run parameters. -/
def ctx0 : Ctx :=
  { now := 1700000000, gelk_version := "0.1", backend_name := "GitlinkEnrich2"
    enriched_on := 1700000001 }

/-- Fixture: an envelope with an origin. -/
def env0 : Envelope :=
  { origin := some (Val.vstr "https://www.gitlink.org.cn/o/r")
    metadata__updated_on := some (Val.vint 1690000000)
    metadata__timestamp := some (Val.vint 1690000001)
    tag := some (Val.vstr "t"), uuid := some (Val.vstr "u") }

/-- Fixture: a comment by a distinct, non-bot user. -/
def comment0 : IComment :=
  { cid := 7, body := "lgtm", created_at := 1600000500, updated_at := 1600000600
    user := { login := "alice", name := "Alice" }
    user_data := some { login := "alice", name := "Alice" }
    reactions := [] }

/-- Fixture: a labelled issue with one comment, enough for the
enrichment to reach the comment fan-out. -/
def issueWithComment : IssueItem :=
  { created_at := 1600000000, finished_at := some 1600100000
    updated_at := 1600100000, status_id := 3, status_name := "resolved"
    author_login := "bob", user_login2 := "bob"
    author_data := none, assignee_data := none
    iid := 42, html_url := "https://www.gitlink.org.cn/o/r/issues/5"
    title := "crash", labels := some ["bug"]
    has_head := false, has_pull_request := false
    reactions := [], comments_data := [comment0] }

/-- Fixture: an open issue (status 1) without comments. -/
def openIssue : IssueItem :=
  { issueWithComment with
    status_id := 1
    finished_at := none
    comments_data := []
    labels := none }

/-- Fixture: a legacy issue with two assignees. -/
def v1Issue : V1IssueData :=
  { created_at := 1600000000, updated_at := 1600100000
    status_id := 3, status_name := "closed"
    author := { login := "bob", name := "Bob" }
    assignee := some [{ login := "a1", name := "Ann" }, { login := "a2", name := "Ben" }]
    iid := 9, project_issues_index := "5", labels := none
    has_head := false, has_pull_request := false }

/-- Fixture: an issue item for identity extraction whose author record
has a name but neither login nor username. -/
def identNoUsername : IdentItem :=
  { category := "issue"
    authorRef := true, assigneeRef := false, mergedByRef := false
    author_data := some (some { login := none, name := some "Alice"
                                email := none, username := none })
    assignee_data := none, merged_by_data := none
    comments_data := [] }

/-- Fixture: a raw ocean item whose `classified_fields_filtered` key is
absent, with data that the fixer would rewrite if it ran. -/
def unfilteredItem : FItem :=
  { category := "issue", classified_fields_filtered := none
    data := { author := some { login := "bob" }, assignee := none, merge_by := none
              author_data := none, assignee_data := none, merge_by_data := none
              comments_data := [{ user := { login := "alice" }, user_data := none }] } }

/-! ## Helper lemmas about the dictionary model -/

theorem dget_dset (d : EDict) (k k2 : EKey) (v : Val) :
    dget (dset d k2 v) k = if k = k2 then Except.ok v else dget d k := rfl

theorem dget_dset_self (d : EDict) (k : EKey) (v : Val) :
    dget (dset d k v) k = Except.ok v := by
  simp [dget_dset]

theorem dget_dset_ne (d : EDict) (k k2 : EKey) (v : Val) (h : k ≠ k2) :
    dget (dset d k2 v) k = dget d k := by
  simp [dget_dset, h]

theorem dget_dpop_ne (d : EDict) (k k2 : EKey) (h : k ≠ k2) :
    dget (dpop d k2) k = dget d k := by
  induction d with
  | nil => rfl
  | cons p rest ih =>
    rcases p with ⟨pk, pv⟩
    simp only [dpop, List.filter_cons, ne_eq, decide_not] at *
    by_cases hp : pk = k2
    · subst hp
      have hk : ¬ k = pk := h
      simp [dget, hk, ih]
    · by_cases hk : k = pk
      · subst hk
        simp [dget, hp]
      · simp [dget, hp, hk, ih]

theorem dget_foldl_sets (ps : List (EKey × Val)) (d : EDict) (k : EKey)
    (h : ∀ p ∈ ps, p.1 ≠ k) :
    dget (ps.foldl (fun d p => dset d p.1 p.2) d) k = dget d k := by
  induction ps generalizing d with
  | nil => rfl
  | cons p rest ih =>
    have hp : p.1 ≠ k := h p (by simp)
    have hrest : ∀ q ∈ rest, q.1 ≠ k := fun q hq => h q (by simp [hq])
    simp only [List.foldl_cons]
    rw [ih _ hrest, dget_dset_ne _ _ _ _ (fun hk => hp hk.symm)]

/-! ## Helper lemmas about the batch loop -/

theorem contribs_cons {β : Type} (F : EnrichFns β) (it : CatItem β)
    (rest : List (CatItem β)) :
    contribs F (it :: rest) = itemContribution F it ++ contribs F rest := by
  simp [contribs]

theorem itemsLogs_cons {β : Type} (F : EnrichFns β) (it : CatItem β)
    (rest : List (CatItem β)) :
    itemsLogs F (it :: rest) = itemLogs F it ++ itemsLogs F rest := by
  simp [itemsLogs]

theorem enrichLoop_go_buf_lt {β : Type} (F : EnrichFns β) (up : List EDict → Nat)
    (items : List (CatItem β)) :
    ∀ st : LoopState, st.buf.length < MAX_SIZE_BULK_ENRICHED_ITEMS →
      ((items.foldl (enrichStep F up) st).buf).length < MAX_SIZE_BULK_ENRICHED_ITEMS := by
  induction items with
  | nil => intro st h; exact h
  | cons it rest ih =>
    intro st _
    simp only [List.foldl_cons]
    apply ih
    by_cases hb : st.buf.length + (itemContribution F it).length
        < MAX_SIZE_BULK_ENRICHED_ITEMS
    · simp [enrichStep, hb]
    · simp [enrichStep, hb]
      decide

theorem enrichLoop_go_conserve {β : Type} (F : EnrichFns β) (up : List EDict → Nat)
    (items : List (CatItem β)) :
    ∀ st : LoopState,
      ((items.foldl (enrichStep F up) st).flushes).flatten
          ++ (items.foldl (enrichStep F up) st).buf
        = st.flushes.flatten ++ st.buf ++ contribs F items := by
  induction items with
  | nil => intro st; simp [contribs]
  | cons it rest ih =>
    intro st
    simp only [List.foldl_cons]
    rw [ih, contribs_cons]
    by_cases hb : st.buf.length + (itemContribution F it).length
        < MAX_SIZE_BULK_ENRICHED_ITEMS
    · simp [enrichStep, hb, List.append_assoc]
    · simp [enrichStep, hb, List.append_assoc]

theorem enrichLoop_go_flush_ge {β : Type} (F : EnrichFns β) (up : List EDict → Nat)
    (items : List (CatItem β)) :
    ∀ st : LoopState, ∀ b ∈ (items.foldl (enrichStep F up) st).flushes,
      b ∈ st.flushes ∨ MAX_SIZE_BULK_ENRICHED_ITEMS ≤ b.length := by
  induction items with
  | nil => intro st b hb; exact Or.inl hb
  | cons it rest ih =>
    intro st b hb
    simp only [List.foldl_cons] at hb
    rcases ih _ b hb with h | h
    · by_cases hs : st.buf.length + (itemContribution F it).length
          < MAX_SIZE_BULK_ENRICHED_ITEMS
      · simp [enrichStep, hs] at h
        exact Or.inl h
      · simp [enrichStep, hs] at h
        rcases h with h | h
        · exact Or.inl h
        · subst h
          exact Or.inr (by simpa using le_of_not_lt hs)
    · exact Or.inr h

theorem enrichLoop_go_num {β : Type} (F : EnrichFns β) (up : List EDict → Nat)
    (items : List (CatItem β)) :
    ∀ st : LoopState, st.num = st.flushes.flatten.length →
      (items.foldl (enrichStep F up) st).num
        = ((items.foldl (enrichStep F up) st).flushes).flatten.length := by
  induction items with
  | nil => intro st h; exact h
  | cons it rest ih =>
    intro st h
    simp only [List.foldl_cons]
    apply ih
    by_cases hb : st.buf.length + (itemContribution F it).length
        < MAX_SIZE_BULK_ENRICHED_ITEMS
    · simp [enrichStep, hb, h]
    · simp [enrichStep, hb, h]
      try omega

theorem enrichLoop_go_ins {β : Type} (F : EnrichFns β) (up : List EDict → Nat)
    (items : List (CatItem β)) :
    ∀ st : LoopState, st.ins = (st.flushes.map up).sum →
      (items.foldl (enrichStep F up) st).ins
        = (((items.foldl (enrichStep F up) st).flushes).map up).sum := by
  induction items with
  | nil => intro st h; exact h
  | cons it rest ih =>
    intro st h
    simp only [List.foldl_cons]
    apply ih
    by_cases hb : st.buf.length + (itemContribution F it).length
        < MAX_SIZE_BULK_ENRICHED_ITEMS
    · simp [enrichStep, hb, h]
    · simp [enrichStep, hb, h]

theorem enrichLoop_go_logs {β : Type} (F : EnrichFns β) (up : List EDict → Nat)
    (items : List (CatItem β)) :
    ∀ st : LoopState,
      (items.foldl (enrichStep F up) st).logs = st.logs ++ itemsLogs F items := by
  induction items with
  | nil => intro st; simp [itemsLogs]
  | cons it rest ih =>
    intro st
    simp only [List.foldl_cons]
    rw [ih, itemsLogs_cons]
    by_cases hb : st.buf.length + (itemContribution F it).length
        < MAX_SIZE_BULK_ENRICHED_ITEMS
    · simp [enrichStep, hb, itemLogs]
    · simp [enrichStep, hb, itemLogs]

theorem enrichLoop_buf_lt {β : Type} (F : EnrichFns β) (up : List EDict → Nat)
    (items : List (CatItem β)) :
    ((enrichLoop F up items).buf).length < MAX_SIZE_BULK_ENRICHED_ITEMS :=
  enrichLoop_go_buf_lt F up items ⟨[], 0, 0, [], []⟩ (by decide)

theorem enrichLoop_conserve {β : Type} (F : EnrichFns β) (up : List EDict → Nat)
    (items : List (CatItem β)) :
    ((enrichLoop F up items).flushes).flatten ++ (enrichLoop F up items).buf
      = contribs F items := by
  simpa using enrichLoop_go_conserve F up items ⟨[], 0, 0, [], []⟩

theorem enrich_items_m_flushes {β : Type} (F : EnrichFns β) (up : List EDict → Nat)
    (items : List (CatItem β)) :
    (enrich_items_m F up items).1.flushes
      = (enrichLoop F up items).flushes
        ++ (if (enrichLoop F up items).buf = [] then []
            else [(enrichLoop F up items).buf]) := by
  by_cases hb : (enrichLoop F up items).buf = []
  · simp only [enrich_items_m, hb, List.length_nil, lt_irrefl, if_false]
    split <;> simp [hb]
  · have hpos : 0 < ((enrichLoop F up items).buf).length := List.length_pos.mpr hb
    simp only [enrich_items_m, hpos, if_true]
    split <;> simp [hb]

theorem enrich_items_m_flatten {β : Type} (F : EnrichFns β) (up : List EDict → Nat)
    (items : List (CatItem β)) :
    ((enrich_items_m F up items).1.flushes).flatten = contribs F items := by
  rw [enrich_items_m_flushes]
  have h := enrichLoop_conserve F up items
  by_cases hb : (enrichLoop F up items).buf = []
  · rw [hb] at h
    simpa [hb] using h
  · rw [if_neg hb, List.flatten_append]
    simpa using h

theorem enrich_items_m_num {β : Type} (F : EnrichFns β) (up : List EDict → Nat)
    (items : List (CatItem β)) :
    (enrich_items_m F up items).1.num
      = ((enrich_items_m F up items).1.flushes).flatten.length := by
  have hn : (enrichLoop F up items).num = ((enrichLoop F up items).flushes).flatten.length :=
    enrichLoop_go_num F up items ⟨[], 0, 0, [], []⟩ rfl
  by_cases hb : (enrichLoop F up items).buf = []
  · simp only [enrich_items_m, hb, List.length_nil, lt_irrefl, if_false]
    split <;> simp [hn]
  · have hpos : 0 < ((enrichLoop F up items).buf).length := List.length_pos.mpr hb
    simp only [enrich_items_m, hpos, if_true]
    split <;> simp [hn, List.flatten_append]

theorem enrich_items_m_ins {β : Type} (F : EnrichFns β) (up : List EDict → Nat)
    (items : List (CatItem β)) :
    (enrich_items_m F up items).1.ins
      = (((enrich_items_m F up items).1.flushes).map up).sum := by
  have hi : (enrichLoop F up items).ins = (((enrichLoop F up items).flushes).map up).sum :=
    enrichLoop_go_ins F up items ⟨[], 0, 0, [], []⟩ rfl
  by_cases hb : (enrichLoop F up items).buf = []
  · simp only [enrich_items_m, hb, List.length_nil, lt_irrefl, if_false]
    split <;> simp [hi]
  · have hpos : 0 < ((enrichLoop F up items).buf).length := List.length_pos.mpr hb
    simp only [enrich_items_m, hpos, if_true]
    split <;> simp [hi]

theorem enrich_items_m_ret {β : Type} (F : EnrichFns β) (up : List EDict → Nat)
    (items : List (CatItem β)) :
    (enrich_items_m F up items).2 = (enrich_items_m F up items).1.num := rfl

theorem enrich_items_m_logs {β : Type} (F : EnrichFns β) (up : List EDict → Nat)
    (items : List (CatItem β)) :
    (enrich_items_m F up items).1.logs
      = itemsLogs F items
        ++ [if (enrich_items_m F up items).1.num ≠ (enrich_items_m F up items).1.ins
            then LogEv.missing
              (((enrich_items_m F up items).1.num : Int) - (enrich_items_m F up items).1.ins)
              (enrich_items_m F up items).1.num
            else LogEv.inserted (enrich_items_m F up items).1.num] := by
  have hl : (enrichLoop F up items).logs = itemsLogs F items := by
    simpa using enrichLoop_go_logs F up items ⟨[], 0, 0, [], []⟩
  by_cases hb : 0 < ((enrichLoop F up items).buf).length
  · simp only [enrich_items_m, hb, if_true]
    split <;> simp_all
  · simp only [enrich_items_m, hb, if_false]
    split <;> simp_all

/-! ## Claim theorems -/

/-- C1: for every run of the batch enrichment loop over a finite record
source, a flush is triggered exactly when the buffered record count
(counting fan-out records) reaches the threshold of 200 and never
before — between items the buffer always holds fewer than 200 records,
every in-loop flushed batch holds at least 200, the trailing partial
batch (necessarily of size at most 199) is flushed exactly once when
non-empty, and the flushed batches together are exactly the records the
transform stage produced. -/
theorem C1_flush_threshold {β : Type} (F : EnrichFns β) (up : List EDict → Nat)
    (items : List (CatItem β)) :
    (∀ n : Nat,
      ((enrichLoop F up (items.take n)).buf).length < MAX_SIZE_BULK_ENRICHED_ITEMS)
    ∧ (∀ b ∈ (enrichLoop F up items).flushes,
        MAX_SIZE_BULK_ENRICHED_ITEMS ≤ b.length)
    ∧ ((enrichLoop F up items).buf).length < MAX_SIZE_BULK_ENRICHED_ITEMS
    ∧ (enrich_items_m F up items).1.flushes
        = (enrichLoop F up items).flushes
          ++ (if (enrichLoop F up items).buf = [] then []
              else [(enrichLoop F up items).buf])
    ∧ ((enrich_items_m F up items).1.flushes).flatten = contribs F items := by
  refine ⟨fun n => enrichLoop_buf_lt F up (items.take n), ?_,
    enrichLoop_buf_lt F up items, enrich_items_m_flushes F up items,
    enrich_items_m_flatten F up items⟩
  intro b hb
  rcases enrichLoop_go_flush_ge F up items ⟨[], 0, 0, [], []⟩ b hb with h | h
  · simp at h
  · exact h

/-- C1 witness: the generic flush theorem evaluated on a concrete run of
two batch-filling issue items against a lossy sink. -/
theorem C1_flush_threshold_witness :
    ((enrichLoop fanoutFns lossyUpload twoFullBatches).buf).length
        < MAX_SIZE_BULK_ENRICHED_ITEMS
    ∧ ((enrich_items_m fanoutFns lossyUpload twoFullBatches).1.flushes).flatten
        = contribs fanoutFns twoFullBatches :=
  ⟨(C1_flush_threshold fanoutFns lossyUpload twoFullBatches).2.2.1,
   (C1_flush_threshold fanoutFns lossyUpload twoFullBatches).2.2.2.2⟩

/-- C8: `enrich_items` returns the total number of enriched records
submitted to the sink across the run — the length of everything the
transform stage produced, fan-out included — and the return value does
not depend on how many records the sink reports as written. -/
theorem C8_returns_total_submitted {β : Type} (F : EnrichFns β)
    (up : List EDict → Nat) (items : List (CatItem β)) :
    (enrich_items_m F up items).2 = (contribs F items).length
    ∧ ∀ up2 : List EDict → Nat,
        (enrich_items_m F up2 items).2 = (enrich_items_m F up items).2 := by
  have h1 : ∀ u : List EDict → Nat,
      (enrich_items_m F u items).2 = (contribs F items).length := by
    intro u
    rw [enrich_items_m_ret, enrich_items_m_num, enrich_items_m_flatten]
  exact ⟨h1 up, fun up2 => (h1 up2).trans (h1 up).symm⟩

/-- C5 (amended): the pipeline accumulates the submitted and written
counts across flushes and compares them once, after the final flush; the
single terminal log event reports the total missing count when they
differ, otherwise the total inserted count; every flushed batch is
uploaded exactly once (no retry) and the run completes. -/
theorem C5_terminal_report {β : Type} (F : EnrichFns β) (up : List EDict → Nat)
    (items : List (CatItem β)) :
    (enrich_items_m F up items).1.logs
      = itemsLogs F items
        ++ [if (enrich_items_m F up items).1.num ≠ (enrich_items_m F up items).1.ins
            then LogEv.missing
              (((enrich_items_m F up items).1.num : Int) - (enrich_items_m F up items).1.ins)
              (enrich_items_m F up items).1.num
            else LogEv.inserted (enrich_items_m F up items).1.num]
    ∧ (enrich_items_m F up items).1.ins
        = (((enrich_items_m F up items).1.flushes).map up).sum
    ∧ (enrich_items_m F up items).1.num
        = ((enrich_items_m F up items).1.flushes).flatten.length :=
  ⟨enrich_items_m_logs F up items, enrich_items_m_ins F up items,
   enrich_items_m_num F up items⟩

theorem fanout_batch_length :
    (emptyDict :: List.replicate 199 emptyDict : List EDict).length = 200 := by
  rw [List.length_cons, List.length_replicate]

theorem fanout_batch_upload :
    lossyUpload (emptyDict :: List.replicate 199 emptyDict) = 199 := by
  show (emptyDict :: List.replicate 199 emptyDict : List EDict).length - 1 = 199
  rw [fanout_batch_length]

theorem fanout_step (st : LoopState) (hbuf : st.buf = []) :
    enrichStep fanoutFns lossyUpload st { category := "issue", payload := () }
      = { buf := []
          num := st.num + 200
          ins := st.ins + 199
          flushes := st.flushes ++ [emptyDict :: List.replicate 199 emptyDict]
          logs := st.logs } := by
  have hc : itemContribution fanoutFns { category := "issue", payload := () }
      = emptyDict :: List.replicate 199 emptyDict := rfl
  have hl : (get_rich_item_m fanoutFns { category := "issue", payload := () }).2 = [] := rfl
  simp only [enrichStep, hc, hl, hbuf, List.nil_append, List.append_nil,
    fanout_batch_length, fanout_batch_upload]
  rw [if_neg (by decide : ¬ (200 < MAX_SIZE_BULK_ENRICHED_ITEMS))]

/-- C5 counterexample: a run with two flushed batches of 200 whose sink
writes only 199 of each emits a single terminal log event (missing 2 of
400) — no comparison or error log happens after each flush, refuting the
claim that every flush is followed by its own comparison and log. -/
theorem C5_no_per_flush_comparison :
    ((enrich_items_m fanoutFns lossyUpload twoFullBatches).1.flushes).map List.length
        = [200, 200]
    ∧ ((enrich_items_m fanoutFns lossyUpload twoFullBatches).1.flushes).map lossyUpload
        = [199, 199]
    ∧ (enrich_items_m fanoutFns lossyUpload twoFullBatches).1.logs
        = [LogEv.missing 2 400] := by
  have hloop : enrichLoop fanoutFns lossyUpload twoFullBatches
      = { buf := [], num := 400, ins := 398
          flushes := [emptyDict :: List.replicate 199 emptyDict,
                      emptyDict :: List.replicate 199 emptyDict]
          logs := [] } := by
    unfold enrichLoop twoFullBatches
    rw [List.foldl_cons, fanout_step _ rfl, List.foldl_cons, fanout_step _ rfl,
        List.foldl_nil]
    rfl
  have hrun : enrich_items_m fanoutFns lossyUpload twoFullBatches
      = ({ buf := [], num := 400, ins := 398
           flushes := [emptyDict :: List.replicate 199 emptyDict,
                       emptyDict :: List.replicate 199 emptyDict]
           logs := [LogEv.missing 2 400] }, 400) := by
    simp only [enrich_items_m, hloop, List.length_nil]
    rw [if_neg (by decide : ¬ ((0 : Nat) < 0)),
        if_pos (by decide : (400 : Nat) ≠ 398)]
    simp only [List.nil_append]
    norm_num
  rw [hrun]
  refine ⟨?_, ?_, rfl⟩
  · simp only [List.map_cons, List.map_nil, fanout_batch_length]
  · simp only [List.map_cons, List.map_nil, fanout_batch_upload]

/-- C2 (amended): a RawRecord with a category other than issue,
pull_request or repository makes `get_rich_item` log the unroutable
category and skip every category-specific mapping, but the (empty apart
from post-processing bookkeeping) record is still appended to the buffer
and submitted to the sink, and the pipeline continues with subsequent
records. -/
theorem C2_unroutable_category {β : Type} (F : EnrichFns β) (b : β) (cat : String)
    (h1 : cat ≠ ISSUE_TYPE) (h2 : cat ≠ PULL_TYPE) (h3 : cat ≠ REPOSITORY_TYPE) :
    get_rich_item_m F ⟨cat, b⟩ = (F.post emptyDict, [LogEv.catError cat])
    ∧ itemContribution F ⟨cat, b⟩ = [F.post emptyDict]
    ∧ (∀ rest : List (CatItem β),
        contribs F (⟨cat, b⟩ :: rest) = F.post emptyDict :: contribs F rest)
    ∧ (∀ rest : List (CatItem β),
        itemsLogs F (⟨cat, b⟩ :: rest) = LogEv.catError cat :: itemsLogs F rest) := by
  refine ⟨?_, ?_, ?_, ?_⟩
  · simp [get_rich_item_m, h1, h2, h3]
  · simp [itemContribution, get_rich_item_m, h1, h2, h3]
  · intro rest
    rw [contribs_cons]
    simp [itemContribution, get_rich_item_m, h1, h2, h3]
  · intro rest
    rw [itemsLogs_cons]
    simp [itemLogs, get_rich_item_m, h1, h2, h3]

/-- C2 witness: the amended claim evaluated at the concrete category
`widget`. -/
theorem C2_unroutable_category_witness :
    itemContribution plainFns { category := "widget", payload := () }
      = [plainFns.post emptyDict] :=
  (C2_unroutable_category plainFns () "widget" (by decide) (by decide) (by decide)).2.1

/-- C2 counterexample: running the pipeline on a single record of the
unknown category `widget` submits one (empty) enriched record to the
sink and returns 1 — refuting the claim that nothing is buffered or
submitted for such a record.  The category error is still logged and the
run completes. -/
theorem C2_empty_record_submitted :
    (enrich_items_m plainFns fullUpload [widgetItem]).2 = 1
    ∧ (enrich_items_m plainFns fullUpload [widgetItem]).1.flushes = [[emptyDict]]
    ∧ (enrich_items_m plainFns fullUpload [widgetItem]).1.logs
        = [LogEv.catError "widget", LogEv.inserted 1] :=
  ⟨rfl, rfl, rfl⟩

/-! ## Lookup lemmas for the staged issue enrichment -/

theorem dget_issueStageGrimoire (it : IssueItem) (d : EDict) (k : EKey)
    (h1 : k ≠ EKey.grimoire_creation_date)
    (h2 : ∀ s, k ≠ EKey.is_gitlink2 s) (h3 : ∀ s, k ≠ EKey.is_gitlink s) :
    dget (issueStageGrimoire it d) k = dget d k := by
  simp only [issueStageGrimoire, get_grimoire_fields2]
  rw [dget_dset_ne _ _ _ _ (h3 ISSUE_TYPE), dget_dpop_ne _ _ _ (h2 ISSUE_TYPE),
      dget_dset_ne _ _ _ _ (h2 ISSUE_TYPE), dget_dset_ne _ _ _ _ h1]

theorem dget_issueStageAttention (it : IssueItem) (d : EDict) (k : EKey)
    (h1 : k ≠ EKey.time_to_first_attention)
    (h2 : k ≠ EKey.num_of_comments_without_bot)
    (h3 : k ≠ EKey.time_to_first_attention_without_bot) :
    dget (issueStageAttention it d) k = dget d k := by
  simp only [issueStageAttention]
  split
  · rw [dget_dset_ne _ _ _ _ h3, dget_dset_ne _ _ _ _ h2, dget_dset_ne _ _ _ _ h1,
        dget_dset_ne _ _ _ _ h1]
  · rw [dget_dset_ne _ _ _ _ h1]

theorem dget_issueStageProject (e : Envelope) (d : EDict) (k : EKey)
    (h : k ≠ EKey.project) :
    dget (issueStageProject e d) k = dget d k := by
  rcases hp : e.project with _ | p <;> simp only [issueStageProject, hp]
  rw [dget_dset_ne _ _ _ _ h]

theorem dget_issueStageFlags (it : IssueItem) (d : EDict) (k : EKey)
    (h1 : k ≠ EKey.item_type) (h2 : k ≠ EKey.issue_pull_request)
    (h3 : k ≠ EKey.gitlink_repo) (h4 : k ≠ EKey.url_id) :
    dget (issueStageFlags it d) k = dget d k := by
  simp only [issueStageFlags]
  split_ifs <;> simp [dget_dset_ne, h1, h2, h3, h4]

theorem dget_issueStageLabels (it : IssueItem) (d : EDict) (k : EKey)
    (h : k ≠ EKey.issue_labels) :
    dget (issueStageLabels it d) k = dget d k := by
  rcases hl : it.labels with _ | ls <;> simp only [issueStageLabels, hl]
  rw [dget_dset_ne _ _ _ _ h]

theorem dget_issueStageReactions (it : IssueItem) (d : EDict) (k : EKey)
    (h : ∀ s, k ≠ EKey.reaction s) :
    dget (issueStageReactions it d) k = dget d k := by
  unfold issueStageReactions
  apply dget_foldl_sets
  intro p hp
  simp only [get_reactions, List.mem_map, List.mem_filter] at hp
  obtain ⟨q, _, rfl⟩ := hp
  exact Ne.symm (h _)

theorem dget_issueStageCore (it : IssueItem) (d : EDict) (k : EKey)
    (h1 : k ≠ EKey.id) (h2 : k ≠ EKey.issue_id) (h3 : k ≠ EKey.issue_id_in_repo)
    (h4 : k ≠ EKey.repository) (h5 : k ≠ EKey.issue_title)
    (h6 : k ≠ EKey.issue_title_analyzed) (h7 : k ≠ EKey.issue_state)
    (h8 : k ≠ EKey.issue_created_at) (h9 : k ≠ EKey.issue_updated_at) :
    dget (issueStageCore it d) k = dget d k := by
  simp only [issueStageCore]
  simp [dget_dset_ne, h1, h2, h3, h4, h5, h6, h7, h8, h9]

theorem dget_issueStageUsers (it : IssueItem) (d : EDict) (k : EKey)
    (h1 : k ≠ EKey.user_login) (h2 : k ≠ EKey.user_name) (h3 : k ≠ EKey.author_name)
    (h4 : k ≠ EKey.user_domain) (h5 : k ≠ EKey.user_org) (h6 : k ≠ EKey.user_location)
    (h7 : k ≠ EKey.user_geolocation) (h8 : k ≠ EKey.assignee_login)
    (h9 : k ≠ EKey.assignee_name) (h10 : k ≠ EKey.assignee_domain)
    (h11 : k ≠ EKey.assignee_org) (h12 : k ≠ EKey.assignee_location)
    (h13 : k ≠ EKey.assignee_geolocation) :
    dget (issueStageUsers it d) k = dget d k := by
  rcases ha : it.author_data with _ | u <;>
    rcases hb : it.assignee_data with _ | (_ | v) <;>
      simp only [issueStageUsers, ha, hb] <;>
        simp [dget_dset_ne, h1, h2, h3, h4, h5, h6, h7, h8, h9, h10, h11, h12, h13]

theorem dget_rich_issue2_time (ctx : Ctx) (e : Envelope) (it : IssueItem) (k : EKey)
    (hk : k = EKey.time_open_days ∨ k = EKey.time_to_close_days) :
    dget (get_rich_issue2 ctx e it) k
      = dget (issueStageTimes ctx it (copy_raw_fields_env e emptyDict)) k := by
  unfold get_rich_issue2
  rw [dget_issueStageGrimoire, dget_issueStageAttention, dget_issueStageProject,
      dget_issueStageFlags, dget_issueStageLabels, dget_issueStageReactions,
      dget_issueStageCore, dget_issueStageUsers]
  all_goals rcases hk with rfl | rfl
  all_goals first
    | decide
    | (intro s; simp)

theorem dget_issueStageTimes_ttc (ctx : Ctx) (it : IssueItem) (d : EDict) :
    dget (issueStageTimes ctx it d) EKey.time_to_close_days
      = Except.ok (vOfOptInt (get_time_diff_days (some it.created_at) it.finished_at)) := by
  simp only [issueStageTimes]
  split <;>
    rw [dget_dset_ne _ _ _ _ (by decide), dget_dset_self]

/-- C3: for every issue, when the status code is 1 or 2 the enriched
`time_open_days` is the day difference between the creation timestamp and
the wall clock at computation time; for any other status code it equals
`time_to_close_days`, the day difference between creation and the closing
timestamp (`finished_at` in `GitlinkEnrich2`, `updated_at` in the legacy
`GitlinkEnrich`).  Both enrichers are covered. -/
theorem C3_time_open_days (ctx : Ctx) (e : Envelope) (it : IssueItem)
    (now : Int) (issue : V1IssueData) :
    ((it.status_id = 1 ∨ it.status_id = 2) →
      dget (get_rich_issue2 ctx e it) EKey.time_open_days
        = Except.ok (vOfOptInt (get_time_diff_days (some it.created_at) (some ctx.now))))
    ∧ (¬ (it.status_id = 1 ∨ it.status_id = 2) →
      dget (get_rich_issue2 ctx e it) EKey.time_open_days
        = dget (get_rich_issue2 ctx e it) EKey.time_to_close_days)
    ∧ dget (get_rich_issue2 ctx e it) EKey.time_to_close_days
        = Except.ok (vOfOptInt (get_time_diff_days (some it.created_at) it.finished_at))
    ∧ ((issue.status_id = 1 ∨ issue.status_id = 2) →
      (get_rich_issue_v1 now e issue).time_open_days
        = get_time_diff_days (some issue.created_at) (some now))
    ∧ (¬ (issue.status_id = 1 ∨ issue.status_id = 2) →
      (get_rich_issue_v1 now e issue).time_open_days
        = (get_rich_issue_v1 now e issue).time_to_close_days)
    ∧ (get_rich_issue_v1 now e issue).time_to_close_days
        = get_time_diff_days (some issue.created_at) (some issue.updated_at) := by
  have hbase := dget_rich_issue2_time ctx e it
  refine ⟨?_, ?_, ?_, ?_, ?_, ?_⟩
  · intro hst
    rw [hbase EKey.time_open_days (Or.inl rfl)]
    simp only [issueStageTimes, hst, if_true]
    exact dget_dset_self _ _ _
  · intro hst
    rw [hbase EKey.time_open_days (Or.inl rfl),
        hbase EKey.time_to_close_days (Or.inr rfl)]
    simp only [issueStageTimes, hst, if_false]
    rw [dget_dset_self, dget_dset_ne _ _ _ _ (by decide), dget_dset_self]
  · rw [hbase EKey.time_to_close_days (Or.inr rfl)]
    exact dget_issueStageTimes_ttc ctx it _
  · intro hst
    simp [get_rich_issue_v1, hst]
  · intro hst
    simp [get_rich_issue_v1, hst]
  · rfl

/-- C3 witness: the issue theorem evaluated on a concrete open issue
(status 1) and a concrete resolved issue (status 3). -/
theorem C3_time_open_days_witness :
    dget (get_rich_issue2 ctx0 env0 openIssue) EKey.time_open_days
      = Except.ok (vOfOptInt (get_time_diff_days (some openIssue.created_at) (some ctx0.now)))
    ∧ dget (get_rich_issue2 ctx0 env0 issueWithComment) EKey.time_open_days
      = dget (get_rich_issue2 ctx0 env0 issueWithComment) EKey.time_to_close_days :=
  ⟨(C3_time_open_days ctx0 env0 openIssue 0 v1Issue).1 (by decide),
   (C3_time_open_days ctx0 env0 issueWithComment 0 v1Issue).2.1 (by decide)⟩

set_option maxRecDepth 100000 in
/-- C4 (code bug): the enriched issue never receives the `issue_url`,
`closed_at` or `gitlink_repo` keys (their assignments are commented out
in `__get_rich_issue`), yet `get_rich_issue_comments` reads them from the
parent, so enriching an issue that has even one comment raises `KeyError`
(first on `issue_url`, line 336) instead of producing the 1 + N records
the claim describes; with zero comments the fan-out correctly yields no
extra record. -/
theorem C4_comment_fanout_keyerror :
    dget (get_rich_item_issue ctx0 env0 issueWithComment) EKey.issue_url
        = Except.error EKey.issue_url
    ∧ enrich_issue ctx0 issueWithComment
        (get_rich_item_issue ctx0 env0 issueWithComment)
        = Except.error EKey.issue_url
    ∧ enrich_issue ctx0 openIssue (get_rich_item_issue ctx0 env0 openIssue)
        = Except.ok [] := by
  refine ⟨?_, ?_, ?_⟩ <;> rfl

/-- C6: the repository scenario — a raw record of category `repository`
whose data carries `forks_count = 3`, `subscribers_count = 10`,
`stargazers_count = 7` and `fetched_on = "2023-01-01T00:00:00"` is
transformed into exactly one enriched record (no fan-out for the
repository category) carrying those three counts and
`item_type = "repository"`, whatever the envelope and origin. -/
theorem C6_repository_scenario {β : Type} (F : EnrichFns β) (b : β)
    (e : Envelope) (origin : String) :
    dget (get_rich_repo2 e ⟨3, 10, 7, "2023-01-01T00:00:00", origin⟩)
        EKey.forks_count = Except.ok (Val.vint 3)
    ∧ dget (get_rich_repo2 e ⟨3, 10, 7, "2023-01-01T00:00:00", origin⟩)
        EKey.subscribers_count = Except.ok (Val.vint 10)
    ∧ dget (get_rich_repo2 e ⟨3, 10, 7, "2023-01-01T00:00:00", origin⟩)
        EKey.stargazers_count = Except.ok (Val.vint 7)
    ∧ dget (get_rich_repo2 e ⟨3, 10, 7, "2023-01-01T00:00:00", origin⟩)
        EKey.item_type = Except.ok (Val.vstr "repository")
    ∧ (itemContribution F ⟨REPOSITORY_TYPE, b⟩).length = 1 := by
  refine ⟨?_, ?_, ?_, ?_, ?_⟩ <;> rfl

/-! ## Lemmas for identity extraction -/

theorem length_filterMap_sh (l : List (Option UserD)) :
    (l.filterMap get_sh_identity).length = (l.filter Option.isSome).length := by
  induction l with
  | nil => rfl
  | cons x rest ih => rcases x with _ | u <;> simp [get_sh_identity, ih]

theorem roleIdentity_isSome (ref : Bool) (rdata : Option (Option UserD)) :
    (roleIdentity ref rdata).isSome = rolePasses ref rdata := by
  rcases ref <;> rcases rdata with _ | (_ | u) <;>
    simp [roleIdentity, rolePasses, get_sh_identity]

/-- C7 (amended): identity extraction yields one tuple per actor
reference that passes the presence guards — for issues the author and the
assignee (when the reference is truthy, the `_data` key exists and the
user dict is truthy) plus one tuple per comment with a truthy
`user_data`; for pull requests only the merger, with pull-request
commenters never visited; for any other category nothing.  Actors are
not deduplicated and a yielded tuple may carry a null username. -/
theorem C7_identity_extraction (it : IdentItem) :
    (it.category = "issue" →
      (get_identities it).length
        = (if rolePasses it.authorRef it.author_data then 1 else 0)
          + (if rolePasses it.assigneeRef it.assignee_data then 1 else 0)
          + (it.comments_data.filter Option.isSome).length)
    ∧ (it.category = "pull_request" →
      (get_identities it).length
        = (if rolePasses it.mergedByRef it.merged_by_data then 1 else 0))
    ∧ (it.category ≠ "issue" → it.category ≠ "pull_request" →
        get_identities it = []) := by
  refine ⟨?_, ?_, ?_⟩
  · intro h
    rw [← roleIdentity_isSome it.authorRef it.author_data,
        ← roleIdentity_isSome it.assigneeRef it.assignee_data]
    rcases hA : roleIdentity it.authorRef it.author_data with _ | iA <;>
      rcases hB : roleIdentity it.assigneeRef it.assignee_data with _ | iB <;>
        simp [get_identities, h, hA, hB, length_filterMap_sh] <;> omega
  · intro h
    have h2 : it.category ≠ "issue" := by simp [h]
    rw [← roleIdentity_isSome it.mergedByRef it.merged_by_data]
    rcases hM : roleIdentity it.mergedByRef it.merged_by_data with _ | iM <;>
      simp [get_identities, h, h2, hM]
  · intro h1 h2
    simp [get_identities, h1, h2]

/-- C7 witness: the amended count theorem evaluated on a concrete issue
record. -/
theorem C7_identity_extraction_witness :
    (get_identities identNoUsername).length
      = (if rolePasses identNoUsername.authorRef identNoUsername.author_data then 1 else 0)
        + (if rolePasses identNoUsername.assigneeRef identNoUsername.assignee_data then 1 else 0)
        + (identNoUsername.comments_data.filter Option.isSome).length :=
  (C7_identity_extraction identNoUsername).1 rfl

/-- C7 counterexample: an issue whose author record holds only a name is
still yielded, with a null username — refuting the claim that every
actor with no resolvable username is skipped (the guards test only the
truthiness of the user dicts, not the username). -/
theorem C7_yields_unresolvable_username :
    get_identities identNoUsername
      = [{ name := some "Alice", email := none, username := none }]
    ∧ (get_identities identNoUsername).map SHIdentity.username = [none] :=
  ⟨rfl, rfl⟩

/-- C9: when the `classified_fields_filtered` key is absent or falsy,
`GitlinkOcean._fix_item` returns at once and the raw item is left exactly
unchanged. -/
theorem C9_fix_item_noop (it : FItem)
    (h : it.classified_fields_filtered ≠ some true) :
    _fix_item it = it := by
  rcases hc : it.classified_fields_filtered with _ | b
  · simp [_fix_item, hc]
  · rcases b
    · simp [_fix_item, hc]
    · exact absurd hc h

/-- C9 witness: the fixer leaves a concrete item without the key
untouched. -/
theorem C9_fix_item_noop_witness : _fix_item unfilteredItem = unfilteredItem :=
  C9_fix_item_noop unfilteredItem (by decide)

theorem getLast?_map_local {α β : Type} (f : α → β) (l : List α) :
    (l.map f).getLast? = (l.getLast?).map f := by
  induction l with
  | nil => rfl
  | cons x rest ih => cases rest <;> simp_all

/-- C10: in the legacy enricher, an issue with a non-empty assignee list
gets its enriched `assignee` field set to the single record of the LAST
assignee (login and name only), not to the full list. -/
theorem C10_last_assignee_wins (now : Int) (e : Envelope) (issue : V1IssueData)
    (l : List V1User) (a : V1User)
    (h1 : issue.assignee = some l) (h2 : l.getLast? = some a) :
    (get_rich_issue_v1 now e issue).assignee
      = some { assignee_login := a.login, assignee_name := a.name } := by
  have hdef : (get_rich_issue_v1 now e issue).assignee
      = v1AssigneeField issue.assignee := rfl
  rw [hdef, h1]
  rcases l with _ | ⟨x, xs⟩
  · simp at h2
  · simp only [v1AssigneeField]
    rw [getLast?_map_local, h2]
    rfl

/-- C10 witness: with two assignees the enriched field holds only the
second one. -/
theorem C10_last_assignee_wins_witness :
    (get_rich_issue_v1 0 env0 v1Issue).assignee
      = some { assignee_login := "a2", assignee_name := "Ben" } :=
  C10_last_assignee_wins 0 env0 v1Issue
    [{ login := "a1", name := "Ann" }, { login := "a2", name := "Ben" }]
    { login := "a2", name := "Ben" } rfl rfl
